import Mathlib

/-!
Verification development for the LunaAI backend authentication core
(`backend/routes/auth.py`, `backend/routes/users.py`).

The Python code is shallowly embedded as executable Lean definitions:

* Password hashing (`get_password_hash` / `verify_password`) wraps passlib
  `CryptContext(schemes=["argon2"])`.  The argon2 PHC hash string
  `$argon2id$v=19$<params>$<salt>$<digest>` is modelled concretely as a
  character list built from the salt and an idealized digest.  The digest is
  modelled as an injective, dollar-free encoding of (salt, password): this is
  the standard idealization of a collision-resistant password hash, and it is
  what makes "verify of a wrong password is false" provable.  The salt, which
  argon2 draws at random on every hashing call, is an explicit parameter.
  passlib raises `UnknownHashError` (a `ValueError`) when the stored string
  cannot be parsed as a configured hash; this effect is modelled by returning
  `Except PasslibError Bool` rather than `Bool`.

* JWT issue/decode (`create_access_token` / `decode_access_token`) via
  python-jose with algorithm HS256.  A token is either a well-formed signed
  payload or a malformed string; the HMAC signature is a function of the
  secret and the payload, and `jose.jwt.decode` checks the signature and then
  the `exp` claim (expired iff `exp < now`, zero leeway).  Current time and
  the process environment (for `os.getenv("JWT_SECRET_KEY", ...)`) are
  explicit parameters.

* The Supabase `Users` table is modelled as a store state: a row list plus
  the next id the store will assign.  `.eq(col, v).limit(1).execute()`
  becomes `take 1` of a filter; `.maybe_single()` becomes `head?`.  The
  route handlers `signup`, `login`, `get_current_user` (auth.py) and
  `upsert_user`, `verify_user_password` (users.py) are state-passing
  functions returning `Except` for the `HTTPException` / uncaught-exception
  outcomes.
-/

namespace LunaAI

/-- Lowercase hex digit character for `n < 16`. -/
def hexDigit (n : Nat) : Char :=
  if n < 10 then Char.ofNat (48 + n) else Char.ofNat (87 + n)

/-- Fixed-width rendering of a Unicode code point as six hex digit chars. -/
def natHex6 (n : Nat) : List Char :=
  [hexDigit (n / 16 ^ 5 % 16), hexDigit (n / 16 ^ 4 % 16), hexDigit (n / 16 ^ 3 % 16),
   hexDigit (n / 16 ^ 2 % 16), hexDigit (n / 16 % 16), hexDigit (n % 16)]

/-- Injective, dollar-free encoding of a character list: six hex chars per char. -/
def encHex : List Char → List Char
  | [] => []
  | c :: cs => natHex6 c.toNat ++ encHex cs

/-- Idealized argon2 digest over (salt, password): an injective encoding standing
in for the collision-resistant argon2id output (base64 in the real PHC string,
hence dollar-free there as well). -/
def argonDigest (salt password : List Char) : List Char :=
  encHex (salt ++ ':' :: password)

/-- PHC-format argon2id hash string contents, as produced by passlib:
algorithm id, version, parameters, salt and digest joined by dollar signs. -/
def phcString (salt digest : List Char) : List Char :=
  ['$'] ++ "argon2id".data ++ ['$'] ++ "v=19".data ++ ['$'] ++ "m=65536,t=3,p=4".data
    ++ ['$'] ++ salt ++ ['$'] ++ digest

/-- Embedding of auth.py `get_password_hash`: `pwd_context.hash(password)` with
`CryptContext(schemes=["argon2"])`.  The random salt argon2 draws per call is an
explicit parameter. -/
def get_password_hash (password salt : String) : String :=
  ⟨phcString salt.data (argonDigest salt.data password.data)⟩

/-- Exception raised by passlib when a hash string cannot be identified or parsed
as one of the configured schemes (UnknownHashError, a ValueError subclass). -/
inductive PasslibError where
  | unknownHash
deriving DecidableEq

/-- Splitting a character list at dollar signs, the semantics of parsing the
PHC string sections. -/
def splitDollar : List Char → List (List Char)
  | [] => [[]]
  | c :: cs =>
    if c = '$' then [] :: splitDollar cs
    else
      match splitDollar cs with
      | [] => [[c]]
      | g :: gs => (c :: g) :: gs

/-- Models passlib identifying and parsing a stored string as an argon2 hash:
the string must consist of exactly the six dollar-separated PHC sections with
the argon2id id and version; otherwise the hash is unrecognized. -/
def argon2Identify (h : List Char) : Option (List Char × List Char) :=
  match splitDollar h with
  | [[], ident, ver, _params, salt, digest] =>
    if ident = "argon2id".data ∧ ver = "v=19".data then some (salt, digest) else none
  | _ => none

/-- Embedding of auth.py `verify_password`: `pwd_context.verify(plain, hashed)`.
passlib parses the stored hash; if it is not a well-formed argon2 hash it raises
UnknownHashError (modelled as `Except.error`); otherwise it recomputes the digest
from the embedded salt and compares. -/
def verify_password (plain_password hashed_password : String) : Except PasslibError Bool :=
  match argon2Identify hashed_password.data with
  | none => .error .unknownHash
  | some (salt, digest) => .ok (digest == argonDigest salt plain_password.data)

/- JWT model (python-jose, HS256). -/

/-- Constant from auth.py line 26, with its comment "will be overridden by env if set". -/
def JWT_SECRET_KEY : String := "change-this-in-env"

/-- Constant from auth.py line 28: 60 * 24 minutes, i.e. 24 hours. -/
def JWT_EXPIRE_MINUTES : Int := 60 * 24

/-- Embedding of auth.py `jwt_secret`: `os.getenv("JWT_SECRET_KEY", JWT_SECRET_KEY)`.
The optional environment variable is the explicit argument. -/
def jwt_secret (env : Option String) : String := env.getD JWT_SECRET_KEY

/-- Claim set built by `create_access_token`: `{"exp": expire, "sub": ..., "email": ...}`.
Times are integer epoch seconds. -/
structure Claims where
  exp : Int
  sub : String
  email : String
deriving DecidableEq

/-- Wire token: either a well-formed signed claim set or a string that does not
parse as a JWT at all. -/
inductive Jwt where
  | signed (payload : Claims) (sig : String)
  | malformed (raw : String)
deriving DecidableEq

/-- HS256 signature model: a concrete function of the secret and the payload. -/
def hmacSign (secret : String) (p : Claims) : String :=
  ⟨encHex ((secret ++ ":" ++ toString p.exp ++ ":" ++ p.sub ++ ":" ++ p.email).data)⟩

/-- Model of `jose.jwt.encode(payload, secret, algorithm="HS256")`. -/
def jwtEncode (p : Claims) (secret : String) : Jwt := .signed p (hmacSign secret p)

/-- Failure reasons inside `jose.jwt.decode`; all are subclasses of JWTError. -/
inductive JWTError where
  | invalidSignature
  | expired
  | malformedToken
deriving DecidableEq

/-- Model of `jose.jwt.decode(token, secret, algorithms=["HS256"])`: reject
unparseable tokens, verify the signature, then check the `exp` claim against the
current time (expired iff exp < now, with zero leeway). -/
def jwtDecode (t : Jwt) (secret : String) (now : Int) : Except JWTError Claims :=
  match t with
  | .malformed _ => .error .malformedToken
  | .signed p sig =>
    if sig ≠ hmacSign secret p then .error .invalidSignature
    else if p.exp < now then .error .expired
    else .ok p

/-- Embedding of auth.py `create_access_token` for the payload shape
`{"sub": sub, "email": email}` it is always called with.  `expires_delta` is in
seconds; when absent the default is `timedelta(minutes=JWT_EXPIRE_MINUTES)`. -/
def create_access_token (sub email : String) (expires_delta : Option Int)
    (env : Option String) (now : Int) : Jwt :=
  jwtEncode
    { exp := now + expires_delta.getD (JWT_EXPIRE_MINUTES * 60), sub := sub, email := email }
    (jwt_secret env)

/-- Endpoint-level failure: either a raised fastapi `HTTPException` (status code
and detail string) or an exception escaping the handler uncaught (a passlib
error propagating out of `verify_password`; FastAPI turns it into a 500). -/
inductive AppError where
  | http (status : Nat) (detail : String)
  | unhandled (e : PasslibError)
deriving DecidableEq

/-- Embedding of auth.py `decode_access_token`: any `JWTError` from
`jwt.decode` is caught and re-raised as `HTTPException(401, "Invalid token")`. -/
def decode_access_token (token : Jwt) (env : Option String) (now : Int) :
    Except AppError Claims :=
  match jwtDecode token (jwt_secret env) now with
  | .ok payload => .ok payload
  | .error _ => .error (.http 401 "Invalid token")

/- Store model (Supabase Users table). -/

/-- Row of the `Users` table, with the columns the routes read and write. -/
structure UserRow where
  user_id : Nat
  user_email : String
  user_pwd : String
  first_name : String
  last_name : Option String
  created_at : Option Int
deriving DecidableEq

/-- State of the `Users` table: its rows plus the next primary key the store
will assign on insert. -/
structure Store where
  rows : List UserRow
  nextId : Nat
deriving DecidableEq

/-- Model of `select ... .eq("user_email", email).limit(1).execute().data`:
at most one matching row, in table order. -/
def findByEmail (s : Store) (email : String) : List UserRow :=
  (s.rows.filter (fun r => r.user_email == email)).take 1

/-- Model of `select ... .eq("user_id", sub).maybe_single().execute().data` in
`get_current_user`: the "sub" claim is a string, compared against the numeric
user_id column (the store coerces, modelled by comparing decimal renderings). -/
def findById (s : Store) (sub : String) : Option UserRow :=
  (s.rows.filter (fun r => toString r.user_id == sub)).head?

/-- Response model `UserPublic` of auth.py: public fields only; the model has
no password or hash field at all. -/
structure UserPublic where
  user_id : Nat
  user_email : String
  first_name : String
  last_name : Option String
  created_at : Option Int
deriving DecidableEq

/-- Building `UserPublic` from a fetched row, as the handlers do. -/
def publicOfRow (r : UserRow) : UserPublic :=
  { user_id := r.user_id, user_email := r.user_email, first_name := r.first_name,
    last_name := r.last_name, created_at := r.created_at }

/-- Response model `TokenResponse` of auth.py. -/
structure TokenResponse where
  access_token : Jwt
  token_type : String
  user : UserPublic
deriving DecidableEq

/-- Embedding of auth.py `get_current_user`: decode the bearer token, then
re-fetch the subject id from the store; a missing record is
`HTTPException(401, "Invalid token")`. -/
def get_current_user (token : Jwt) (s : Store) (env : Option String) (now : Int) :
    Except AppError UserPublic :=
  match decode_access_token token env now with
  | .error e => .error e
  | .ok data =>
    match findById s data.sub with
    | none => .error (.http 401 "Invalid token")
    | some row => .ok (publicOfRow row)

/-- Embedding of auth.py `signup`: check the email, hash the password with a
fresh salt, insert, fetch the row back by email.  The store model is
deterministic, so the insert-error and fetch-miss 500 branches of the handler
are present but unreachable; `now` is the creation timestamp the store
assigns. -/
def signup (s : Store) (first_name : String) (last_name : Option String)
    (email password salt : String) (now : Int) : Except AppError UserPublic × Store :=
  match findByEmail s email with
  | _ :: _ => (.error (.http 409 "Email already registered"), s)
  | [] =>
    let hashed := get_password_hash password salt
    let row : UserRow :=
      { user_id := s.nextId, user_email := email, user_pwd := hashed,
        first_name := first_name, last_name := last_name, created_at := some now }
    let s2 : Store := { rows := s.rows ++ [row], nextId := s.nextId + 1 }
    match findByEmail s2 email with
    | [] => (.error (.http 500 "Failed to fetch created user"), s2)
    | r :: _ => (.ok (publicOfRow r), s2)

/-- Embedding of auth.py `login`: fetch by email, verify the password, then
mint a token with the default TTL.  A passlib exception from
`verify_password` is not caught by the handler. -/
def login (s : Store) (email password : String) (env : Option String) (now : Int) :
    Except AppError TokenResponse :=
  match findByEmail s email with
  | [] => .error (.http 401 "Invalid credentials")
  | row :: _ =>
    match verify_password password row.user_pwd with
    | .error e => .error (.unhandled e)
    | .ok false => .error (.http 401 "Invalid credentials")
    | .ok true =>
      .ok { access_token := create_access_token (toString row.user_id) row.user_email none env now,
            token_type := "bearer", user := publicOfRow row }

/-- Embedding of users.py `upsert_user`: if a row with the email exists, return
it unchanged; otherwise insert with the PLAINTEXT password (the handler is a
debug path that deliberately skips hashing) and fetch it back. -/
def upsert_user (s : Store) (email first_name : String) (last_name : Option String)
    (password : String) (now : Int) : Except AppError UserPublic × Store :=
  match findByEmail s email with
  | row :: _ => (.ok (publicOfRow row), s)
  | [] =>
    let row : UserRow :=
      { user_id := s.nextId, user_email := email, user_pwd := password,
        first_name := first_name, last_name := last_name, created_at := some now }
    let s2 : Store := { rows := s.rows ++ [row], nextId := s.nextId + 1 }
    match findByEmail s2 email with
    | [] => (.error (.http 500 "Failed to fetch user"), s2)
    | r :: _ => (.ok (publicOfRow r), s2)

/-- Embedding of users.py `verify_user_password`: fetch by email and compare the
request password with the stored `user_pwd` by plain string equality. -/
def verify_user_password (s : Store) (email password : String) :
    Except AppError UserPublic :=
  match findByEmail s email with
  | [] => .error (.http 401 "Invalid credentials")
  | row :: _ =>
    if password ≠ row.user_pwd then .error (.http 401 "Invalid credentials")
    else .ok (publicOfRow row)

/-- Decidable equality for handler results, so that concrete runs can be
checked by evaluation. -/
instance {ε α : Type} [DecidableEq ε] [DecidableEq α] : DecidableEq (Except ε α) := fun x y =>
  match x, y with
  | .ok a, .ok b =>
    if h : a = b then .isTrue (by rw [h]) else .isFalse (fun hc => h (Except.ok.inj hc))
  | .error e, .error f =>
    if h : e = f then .isTrue (by rw [h]) else .isFalse (fun hc => h (Except.error.inj hc))
  | .ok _, .error _ => .isFalse (fun hc => Except.noConfusion hc)
  | .error _, .ok _ => .isFalse (fun hc => Except.noConfusion hc)

/-- Failure conditions of `jose.jwt.decode` named by the specification: the
token is malformed, its signature does not verify under the given secret, or
its expiry time has passed at the moment of decoding. -/
def tokenInvalid (t : Jwt) (secret : String) (now : Int) : Prop :=
  match t with
  | .malformed _ => True
  | .signed p sig => sig ≠ hmacSign secret p ∨ p.exp < now

/- Lemmas about the hex encoding. -/

lemma hexDigit_inj_fin : ∀ a b : Fin 16, hexDigit a.val = hexDigit b.val → a = b := by
  decide

lemma hexDigit_val_inj {a b : Nat} (ha : a < 16) (hb : b < 16)
    (h : hexDigit a = hexDigit b) : a = b :=
  congrArg Fin.val (hexDigit_inj_fin ⟨a, ha⟩ ⟨b, hb⟩ h)

lemma hexDigit_ne_dollar {k : Nat} (h : k < 16) : hexDigit k ≠ '$' :=
  (by decide : ∀ j : Fin 16, hexDigit j.val ≠ '$') ⟨k, h⟩

lemma dollar_not_mem_natHex6 (n : Nat) : '$' ∉ natHex6 n := by
  intro hmem
  simp only [natHex6, List.mem_cons, List.not_mem_nil, or_false] at hmem
  rcases hmem with h | h | h | h | h | h <;>
    exact hexDigit_ne_dollar (Nat.mod_lt _ (by norm_num)) h.symm

lemma dollar_not_mem_encHex (l : List Char) : '$' ∉ encHex l := by
  induction l with
  | nil => simp [encHex]
  | cons c cs ih =>
    simp only [encHex, List.mem_append]
    rintro (h | h)
    · exact dollar_not_mem_natHex6 _ h
    · exact ih h

lemma char_toNat_lt (c : Char) : c.toNat < 1114112 := by
  have h := c.valid
  simp only [Char.toNat]
  rcases h with h | h <;> omega

lemma char_toNat_inj {c d : Char} (h : c.toNat = d.toNat) : c = d := by
  have h2 := congrArg Char.ofNat h
  rwa [Char.ofNat_toNat, Char.ofNat_toNat] at h2

lemma natHex6_inj {n m : Nat} (hn : n < 16 ^ 6) (hm : m < 16 ^ 6)
    (h : natHex6 n = natHex6 m) : n = m := by
  simp only [natHex6, List.cons.injEq, and_true] at h
  obtain ⟨h5, h4, h3, h2, h1, h0⟩ := h
  have e5 := hexDigit_val_inj (Nat.mod_lt _ (by norm_num)) (Nat.mod_lt _ (by norm_num)) h5
  have e4 := hexDigit_val_inj (Nat.mod_lt _ (by norm_num)) (Nat.mod_lt _ (by norm_num)) h4
  have e3 := hexDigit_val_inj (Nat.mod_lt _ (by norm_num)) (Nat.mod_lt _ (by norm_num)) h3
  have e2 := hexDigit_val_inj (Nat.mod_lt _ (by norm_num)) (Nat.mod_lt _ (by norm_num)) h2
  have e1 := hexDigit_val_inj (Nat.mod_lt _ (by norm_num)) (Nat.mod_lt _ (by norm_num)) h1
  have e0 := hexDigit_val_inj (Nat.mod_lt _ (by norm_num)) (Nat.mod_lt _ (by norm_num)) h0
  have hn' : n < 16 ^ 6 := hn
  have hm' : m < 16 ^ 6 := hm
  simp only [pow_succ, pow_zero, one_mul] at e5 e4 e3 e2 hn' hm'
  omega

lemma natHex6_length (n : Nat) : (natHex6 n).length = 6 := rfl

lemma encHex_inj {l1 : List Char} : ∀ {l2 : List Char}, encHex l1 = encHex l2 → l1 = l2 := by
  induction l1 with
  | nil =>
    intro l2 h
    cases l2 with
    | nil => rfl
    | cons d ds => simp [encHex, natHex6] at h
  | cons c cs ih =>
    intro l2 h
    cases l2 with
    | nil => simp [encHex, natHex6] at h
    | cons d ds =>
      simp only [encHex] at h
      obtain ⟨h1, h2⟩ := List.append_inj h (by simp [natHex6_length])
      have hc : c = d := by
        refine char_toNat_inj (natHex6_inj ?_ ?_ h1)
        · exact lt_trans (char_toNat_lt c) (by norm_num)
        · exact lt_trans (char_toNat_lt d) (by norm_num)
      rw [hc, ih h2]

lemma encHex_length (l : List Char) : (encHex l).length = 6 * l.length := by
  induction l with
  | nil => rfl
  | cons c cs ih =>
    simp only [encHex, List.length_append, natHex6_length, List.length_cons, ih]
    ring

lemma argonDigest_inj {salt p q : List Char}
    (h : argonDigest salt p = argonDigest salt q) : p = q := by
  have h2 := List.append_cancel_left (encHex_inj h)
  simpa using h2

/- Lemmas about dollar-splitting and PHC parsing. -/

lemma splitDollar_dollar_cons (l : List Char) :
    splitDollar ('$' :: l) = [] :: splitDollar l := by
  simp [splitDollar]

lemma splitDollar_no_dollar {l : List Char} (h : '$' ∉ l) : splitDollar l = [l] := by
  induction l with
  | nil => rfl
  | cons c cs ih =>
    simp only [List.mem_cons, not_or] at h
    rw [splitDollar, if_neg (fun hc => h.1 hc.symm), ih h.2]

lemma splitDollar_append_dollar {a : List Char} (b : List Char) (h : '$' ∉ a) :
    splitDollar (a ++ '$' :: b) = a :: splitDollar b := by
  induction a with
  | nil => simpa using splitDollar_dollar_cons b
  | cons c cs ih =>
    simp only [List.mem_cons, not_or] at h
    rw [List.cons_append, splitDollar, if_neg (fun hc => (h.1 hc.symm).elim),
      ih h.2]

lemma splitDollar_phc {salt digest : List Char} (hs : '$' ∉ salt) (hd : '$' ∉ digest) :
    splitDollar (phcString salt digest) =
      [[], "argon2id".data, "v=19".data, "m=65536,t=3,p=4".data, salt, digest] := by
  have hid : '$' ∉ "argon2id".data := by decide
  have hv : '$' ∉ "v=19".data := by decide
  have hp : '$' ∉ "m=65536,t=3,p=4".data := by decide
  have hshape : phcString salt digest =
      '$' :: ("argon2id".data ++ '$' :: ("v=19".data ++ '$' ::
        ("m=65536,t=3,p=4".data ++ '$' :: (salt ++ '$' :: digest)))) := by
    simp [phcString]
  rw [hshape, splitDollar_dollar_cons, splitDollar_append_dollar _ hid,
    splitDollar_append_dollar _ hv, splitDollar_append_dollar _ hp,
    splitDollar_append_dollar _ hs, splitDollar_no_dollar hd]

lemma argon2Identify_phc {salt digest : List Char} (hs : '$' ∉ salt) (hd : '$' ∉ digest) :
    argon2Identify (phcString salt digest) = some (salt, digest) := by
  rw [argon2Identify, splitDollar_phc hs hd]
  simp

lemma string_data_inj {s t : String} (h : s.data = t.data) : s = t := by
  cases s; cases t; simp_all

lemma verify_password_hash (p plain salt : String) (hs : '$' ∉ salt.data) :
    verify_password plain (get_password_hash p salt) =
      .ok (decide (plain.data = p.data)) := by
  rw [verify_password, get_password_hash]
  have hdata : (String.mk (phcString salt.data (argonDigest salt.data p.data))).data
      = phcString salt.data (argonDigest salt.data p.data) := rfl
  rw [hdata, argon2Identify_phc hs
    (show '$' ∉ argonDigest salt.data p.data from dollar_not_mem_encHex _)]
  by_cases heq : plain.data = p.data
  · simp [heq]
  · have hne : argonDigest salt.data p.data ≠ argonDigest salt.data plain.data := by
      intro hdig
      exact heq (argonDigest_inj hdig).symm
    simp [heq, hne]

/- Supporting lemmas about decoding, the store, and hash lengths. -/

lemma jwtDecode_encode (p : Claims) (secret : String) (now : Int) (h : ¬ p.exp < now) :
    jwtDecode (jwtEncode p secret) secret now = .ok p := by
  simp [jwtDecode, jwtEncode, h]

lemma decode_access_token_encode (p : Claims) (env : Option String) (now : Int)
    (h : ¬ p.exp < now) :
    decode_access_token (jwtEncode p (jwt_secret env)) env now = .ok p := by
  simp only [decode_access_token]
  rw [jwtDecode_encode _ _ _ h]

lemma take_one_nil {α : Type} {l : List α} (h : l.take 1 = []) : l = [] := by
  cases l <;> simp_all

lemma findByEmail_insert_fresh (s : Store) (email : String) (row : UserRow) (n : Nat)
    (hfresh : findByEmail s email = []) (hrow : row.user_email = email) :
    findByEmail { rows := s.rows ++ [row], nextId := n } email = [row] := by
  have hfilter : s.rows.filter (fun r => r.user_email == email) = [] :=
    take_one_nil hfresh
  simp [findByEmail, List.filter_append, hfilter, hrow]

lemma phcString_length (salt digest : List Char) :
    (phcString salt digest).length = 32 + salt.length + digest.length := by
  have h1 : ("argon2id".data).length = 8 := rfl
  have h2 : ("v=19".data).length = 4 := rfl
  have h3 : ("m=65536,t=3,p=4".data).length = 15 := rfl
  simp only [phcString, List.length_append, List.length_cons, List.length_nil, h1, h2, h3]
  omega

lemma password_ne_hash (password salt : String) :
    password ≠ get_password_hash password salt := by
  intro h
  have hdata : password.data = phcString salt.data (argonDigest salt.data password.data) :=
    congrArg String.data h
  have hlen := congrArg List.length hdata
  rw [phcString_length, argonDigest, encHex_length] at hlen
  simp only [List.length_append, List.length_cons] at hlen
  omega

lemma signup_conflict_eq (s : Store) (fn : String) (ln : Option String)
    (email password salt : String) (now : Int) (row : UserRow) (rest : List UserRow)
    (hfind : findByEmail s email = row :: rest) :
    signup s fn ln email password salt now
      = (.error (.http 409 "Email already registered"), s) := by
  simp [signup, hfind]

lemma signup_fresh_eq (s : Store) (fn : String) (ln : Option String)
    (email password salt : String) (now : Int) (hfresh : findByEmail s email = []) :
    signup s fn ln email password salt now =
      (.ok { user_id := s.nextId, user_email := email, first_name := fn,
             last_name := ln, created_at := some now },
       { rows := s.rows ++
           [{ user_id := s.nextId, user_email := email,
              user_pwd := get_password_hash password salt,
              first_name := fn, last_name := ln, created_at := some now }],
         nextId := s.nextId + 1 }) := by
  have hfetch := findByEmail_insert_fresh s email
    { user_id := s.nextId, user_email := email,
      user_pwd := get_password_hash password salt,
      first_name := fn, last_name := ln, created_at := some now } (s.nextId + 1) hfresh rfl
  simp [signup, hfresh, hfetch, publicOfRow]

/- Claim theorems. -/

/-- C1: for every plaintext p, `verify_password p (get_password_hash p)` is true;
for distinct plaintexts p and p2, `verify_password p (get_password_hash p2)` is
false; and two hashing calls on the same plaintext with the distinct random
salts they draw produce different hash strings, both of which verify against p.
Salts are dollar-free, as argon2 salts are base64 encoded. -/
theorem hash_verify_spec (p p2 salt salt2 : String)
    (hs : '$' ∉ salt.data) (hs2 : '$' ∉ salt2.data) :
    verify_password p (get_password_hash p salt) = .ok true
    ∧ (p ≠ p2 → verify_password p (get_password_hash p2 salt) = .ok false)
    ∧ (salt ≠ salt2 →
        get_password_hash p salt ≠ get_password_hash p salt2
        ∧ verify_password p (get_password_hash p salt) = .ok true
        ∧ verify_password p (get_password_hash p salt2) = .ok true) := by
  refine ⟨?_, ?_, ?_⟩
  · rw [verify_password_hash p p salt hs]
    simp
  · intro hne
    rw [verify_password_hash p2 p salt hs]
    simp only [Except.ok.injEq, decide_eq_false_iff_not]
    intro hdata
    exact hne (string_data_inj hdata)
  · intro hnesalt
    refine ⟨?_, ?_, ?_⟩
    · intro heq
      have hd := congrArg String.data heq
      have e1 := splitDollar_phc hs
        (show '$' ∉ argonDigest salt.data p.data from dollar_not_mem_encHex _)
      have e2 := splitDollar_phc hs2
        (show '$' ∉ argonDigest salt2.data p.data from dollar_not_mem_encHex _)
      have hcongr := congrArg splitDollar hd
      rw [show (get_password_hash p salt).data
            = phcString salt.data (argonDigest salt.data p.data) from rfl,
        show (get_password_hash p salt2).data
            = phcString salt2.data (argonDigest salt2.data p.data) from rfl,
        e1, e2] at hcongr
      simp only [List.cons.injEq, and_true] at hcongr
      exact hnesalt (string_data_inj hcongr.2.2.2.2.1)
    · rw [verify_password_hash p p salt hs]
      simp
    · rw [verify_password_hash p p salt2 hs2]
      simp

/-- Witness for C1 at concrete plaintexts and salts. -/
theorem hash_verify_spec_witness :
    verify_password "secret1" (get_password_hash "secret1" "c29tZXNhbHQ") = .ok true
    ∧ verify_password "secret1" (get_password_hash "wrong" "c29tZXNhbHQ") = .ok false
    ∧ get_password_hash "secret1" "c29tZXNhbHQ" ≠ get_password_hash "secret1" "b3RoZXJzYWx0" := by
  obtain ⟨h1, h2, h3⟩ :=
    hash_verify_spec "secret1" "wrong" "c29tZXNhbHQ" "b3RoZXJzYWx0" (by decide) (by decide)
  exact ⟨h1, h2 (by decide), (h3 (by decide)).1⟩

/-- C2: decoding a token minted by `create_access_token` with `{"sub": sub,
"email": email}` and a positive ttl, before the expiry time and under the same
signing secret, succeeds and returns the encoded sub and email claims. -/
theorem token_roundtrip (sub email : String) (ttl : Int) (env : Option String)
    (t0 t1 : Int) (h1 : 0 < ttl) (h2 : t1 < t0 + ttl) :
    decode_access_token (create_access_token sub email (some ttl) env t0) env t1
      = .ok { exp := t0 + ttl, sub := sub, email := email } := by
  have hc : create_access_token sub email (some ttl) env t0
      = jwtEncode { exp := t0 + ttl, sub := sub, email := email } (jwt_secret env) := rfl
  rw [hc]
  exact decode_access_token_encode _ env t1 (by show ¬ (t0 + ttl < t1); omega)

/-- Witness for C2 at a concrete subject, ttl and clock. -/
theorem token_roundtrip_witness :
    decode_access_token (create_access_token "1" "a@x.com" (some 3600) none 1000) none 2000
      = .ok { exp := 4600, sub := "1", email := "a@x.com" } :=
  token_roundtrip "1" "a@x.com" 3600 none 1000 2000 (by decide) (by decide)

/-- C3: a login whose email has no record and a login whose record exists but
whose password verifies false raise the same error: HTTPException with status
401 and detail "Invalid credentials". -/
theorem login_uniform_invalid_credentials (s : Store) (email pwd : String)
    (env : Option String) (t0 : Int) :
    (findByEmail s email = [] →
      login s email pwd env t0 = .error (.http 401 "Invalid credentials"))
    ∧ (∀ (row : UserRow) (rest : List UserRow), findByEmail s email = row :: rest →
        verify_password pwd row.user_pwd = .ok false →
        login s email pwd env t0 = .error (.http 401 "Invalid credentials")) := by
  constructor
  · intro h
    simp [login, h]
  · intro row rest h hv
    simp [login, h, hv]

/-- Witness for C3: the empty store and a store holding a user hashed from a
different password produce the identical 401 error. -/
theorem login_uniform_invalid_credentials_witness :
    login { rows := [], nextId := 1 } "a@x.com" "pw" none 0
        = .error (.http 401 "Invalid credentials")
    ∧ login { rows := [{ user_id := 1, user_email := "a@x.com",
                         user_pwd := get_password_hash "secret1" "c2FsdA", first_name := "A",
                         last_name := none, created_at := none }],
              nextId := 2 } "a@x.com" "wrong" none 0
        = .error (.http 401 "Invalid credentials") :=
  ⟨(login_uniform_invalid_credentials { rows := [], nextId := 1 } "a@x.com" "pw" none 0).1
      (by decide),
   (login_uniform_invalid_credentials _ "a@x.com" "wrong" none 0).2
     { user_id := 1, user_email := "a@x.com",
       user_pwd := get_password_hash "secret1" "c2FsdA", first_name := "A",
       last_name := none, created_at := none } [] (by decide) (by decide)⟩

set_option maxRecDepth 20000 in
/-- C4 (documents the code defect): when the JWT_SECRET_KEY environment variable
is absent, the program does NOT fail at startup; `jwt_secret` silently falls
back to the hardcoded constant "change-this-in-env", and `create_access_token`
signs tokens with that constant. -/
theorem jwt_secret_fallback_constant :
    jwt_secret none = "change-this-in-env"
    ∧ create_access_token "1" "a@x.com" none none 0
        = Jwt.signed { exp := 86400, sub := "1", email := "a@x.com" }
            (hmacSign "change-this-in-env" { exp := 86400, sub := "1", email := "a@x.com" }) := by
  constructor
  · rfl
  · decide

/-- C5: `decode_access_token` fails with HTTPException 401 "Invalid token" on
every token that is malformed, carries an invalid signature, or is expired at
decode time; no such token yields a successful decode. -/
theorem decode_rejects_invalid_tokens (t : Jwt) (env : Option String) (now : Int) :
    (tokenInvalid t (jwt_secret env) now →
      decode_access_token t env now = .error (.http 401 "Invalid token"))
    ∧ (∀ p, decode_access_token t env now = .ok p → ¬ tokenInvalid t (jwt_secret env) now) := by
  have hmain : tokenInvalid t (jwt_secret env) now →
      decode_access_token t env now = .error (.http 401 "Invalid token") := by
    intro h
    cases t with
    | malformed raw => simp [decode_access_token, jwtDecode]
    | signed p sig =>
      simp only [tokenInvalid] at h
      rcases h with hsig | hexp
      · simp [decode_access_token, jwtDecode, hsig]
      · rcases eq_or_ne sig (hmacSign (jwt_secret env) p) with hs | hs
        · simp [decode_access_token, jwtDecode, hs, hexp]
        · simp [decode_access_token, jwtDecode, hs]
  refine ⟨hmain, fun p hp hinv => ?_⟩
  rw [hmain hinv] at hp
  exact Except.noConfusion hp

/-- Witness for C5 at a concrete malformed token. -/
theorem decode_rejects_invalid_tokens_witness :
    decode_access_token (Jwt.malformed "garbage") none 0 = .error (.http 401 "Invalid token") :=
  (decode_rejects_invalid_tokens (Jwt.malformed "garbage") none 0).1 trivial

/-- C6: for a validly signed, unexpired token, `get_current_user` re-fetches the
subject id from the store: it fails with 401 "Invalid token" when no record with
that id exists, and any accepted request resolves to a currently-existing
record. -/
theorem current_user_requires_existing_record (p : Claims) (t : Jwt) (s : Store)
    (env : Option String) (now : Int)
    (hsig : t = jwtEncode p (jwt_secret env)) (hexp : ¬ p.exp < now) :
    (findById s p.sub = none →
      get_current_user t s env now = .error (.http 401 "Invalid token"))
    ∧ (∀ u, get_current_user t s env now = .ok u →
        ∃ row, findById s p.sub = some row ∧ u = publicOfRow row) := by
  have hdec : decode_access_token t env now = .ok p := by
    rw [hsig]
    exact decode_access_token_encode p env now hexp
  constructor
  · intro hnone
    simp [get_current_user, hdec, hnone]
  · intro u hu
    simp only [get_current_user, hdec] at hu
    cases hfind : findById s p.sub with
    | none =>
      rw [hfind] at hu
      simp at hu
    | some row =>
      rw [hfind] at hu
      simp at hu
      exact ⟨row, rfl, hu.symm⟩

/-- Witness for C6: a valid token whose subject id has no record in the store is
rejected with 401 "Invalid token". -/
theorem current_user_requires_existing_record_witness :
    get_current_user (jwtEncode { exp := 100, sub := "1", email := "a@x.com" } (jwt_secret none))
        { rows := [], nextId := 1 } none 0 = .error (.http 401 "Invalid token") :=
  (current_user_requires_existing_record { exp := 100, sub := "1", email := "a@x.com" } _
      { rows := [], nextId := 1 } none 0 rfl (by decide)).1 (by decide)

/-- C7: a signup whose email already has a row fails with 409 "Email already
registered" and leaves the store unchanged; a signup with a fresh email stores
the argon2 hash of the password (never the plaintext) and returns only the
public identity fields, which include neither the password nor its hash. -/
theorem signup_conflict_and_hashing (s : Store) (fn : String) (ln : Option String)
    (email password salt : String) (now : Int) :
    (∀ (row : UserRow) (rest : List UserRow), findByEmail s email = row :: rest →
      signup s fn ln email password salt now
        = (.error (.http 409 "Email already registered"), s))
    ∧ (findByEmail s email = [] →
      signup s fn ln email password salt now =
        (.ok { user_id := s.nextId, user_email := email, first_name := fn,
               last_name := ln, created_at := some now },
         { rows := s.rows ++
             [{ user_id := s.nextId, user_email := email,
                user_pwd := get_password_hash password salt,
                first_name := fn, last_name := ln, created_at := some now }],
           nextId := s.nextId + 1 })) :=
  ⟨fun row rest hfind => signup_conflict_eq s fn ln email password salt now row rest hfind,
   fun hfresh => signup_fresh_eq s fn ln email password salt now hfresh⟩

/-- Witness for C7: a conflicting signup rejected with the store unchanged, and
a fresh signup storing the hash and returning the public identity. -/
theorem signup_conflict_and_hashing_witness :
    signup { rows := [{ user_id := 1, user_email := "a@x.com", user_pwd := "h",
                        first_name := "A", last_name := none, created_at := none }],
             nextId := 2 } "B" none "a@x.com" "secret1" "c2FsdA" 5
      = (.error (.http 409 "Email already registered"),
         { rows := [{ user_id := 1, user_email := "a@x.com", user_pwd := "h",
                      first_name := "A", last_name := none, created_at := none }],
           nextId := 2 })
    ∧ signup { rows := [], nextId := 1 } "A" none "a@x.com" "secret1" "c2FsdA" 5
      = (.ok { user_id := 1, user_email := "a@x.com", first_name := "A",
               last_name := none, created_at := some 5 },
         { rows := [{ user_id := 1, user_email := "a@x.com",
                      user_pwd := get_password_hash "secret1" "c2FsdA",
                      first_name := "A", last_name := none, created_at := some 5 }],
           nextId := 2 }) := by
  constructor
  · exact (signup_conflict_and_hashing _ "B" none "a@x.com" "secret1" "c2FsdA" 5).1
      { user_id := 1, user_email := "a@x.com", user_pwd := "h",
        first_name := "A", last_name := none, created_at := none } [] (by decide)
  · have h := (signup_conflict_and_hashing { rows := [], nextId := 1 }
      "A" none "a@x.com" "secret1" "c2FsdA" 5).2 (by decide)
    simpa using h

/-- C8 counterexample: on a malformed stored hash (here "", the default value
login reads when the user_pwd key is missing), `verify_password` does not
return false: passlib raises UnknownHashError. -/
theorem verify_password_malformed_counterexample :
    verify_password "secret1" "" = .error .unknownHash
    ∧ verify_password "secret1" "" ≠ .ok false := by
  decide

/-- C8 (amended): for every plaintext and every stored string that does not
parse as an argon2 hash, `verify_password` raises UnknownHashError instead of
returning false, and a login against such a stored value propagates the
exception out of the handler instead of answering 401. -/
theorem verify_password_malformed_raises (plain stored : String)
    (h : argon2Identify stored.data = none) :
    verify_password plain stored = .error .unknownHash
    ∧ (∀ (s : Store) (email : String) (env : Option String) (t0 : Int)
        (row : UserRow) (rest : List UserRow),
        findByEmail s email = row :: rest → row.user_pwd = stored →
        login s email plain env t0 = .error (.unhandled .unknownHash)) := by
  have hv : verify_password plain stored = .error .unknownHash := by
    simp [verify_password, h]
  refine ⟨hv, fun s email env t0 row rest hfind hpwd => ?_⟩
  simp [login, hfind, hpwd, hv]

/-- Witness for C8 amended: a legacy row storing the plaintext "secret1" (as the
debug upsert writes it) makes login crash with the propagated passlib error. -/
theorem verify_password_malformed_raises_witness :
    verify_password "wrong" "secret1" = .error .unknownHash
    ∧ login { rows := [{ user_id := 1, user_email := "a@x.com", user_pwd := "secret1",
                         first_name := "A", last_name := none, created_at := none }],
              nextId := 2 } "a@x.com" "wrong" none 0 = .error (.unhandled .unknownHash) := by
  obtain ⟨h1, h2⟩ := verify_password_malformed_raises "wrong" "secret1" (by decide)
  exact ⟨h1, h2 _ "a@x.com" none 0
    { user_id := 1, user_email := "a@x.com", user_pwd := "secret1",
      first_name := "A", last_name := none, created_at := none } [] (by decide) rfl⟩

/-- C9: /users/verify-password succeeds on an existing email exactly when the
request password is string-equal to the stored user_pwd; hence for a user
created through /auth/signup (whose stored user_pwd is the argon2 hash), the
correct original password is rejected with 401. -/
theorem verify_endpoint_plaintext_compare :
    (∀ (s : Store) (email pwd : String) (row : UserRow) (rest : List UserRow),
      findByEmail s email = row :: rest →
      (verify_user_password s email pwd = .ok (publicOfRow row) ↔ pwd = row.user_pwd))
    ∧ (∀ (s : Store) (fn : String) (ln : Option String) (email password salt : String)
        (now : Int), findByEmail s email = [] →
        verify_user_password (signup s fn ln email password salt now).2 email password
          = .error (.http 401 "Invalid credentials")) := by
  constructor
  · intro s email pwd row rest hfind
    constructor
    · intro hok
      by_cases h : pwd = row.user_pwd
      · exact h
      · simp [verify_user_password, hfind, h] at hok
    · intro heq
      simp [verify_user_password, hfind, heq]
  · intro s fn ln email password salt now hfresh
    rw [signup_fresh_eq s fn ln email password salt now hfresh]
    have hfetch := findByEmail_insert_fresh s email
      { user_id := s.nextId, user_email := email,
        user_pwd := get_password_hash password salt,
        first_name := fn, last_name := ln, created_at := some now } (s.nextId + 1) hfresh rfl
    simp [verify_user_password, hfetch, password_ne_hash password salt]

/-- Witness for C9: a legacy plaintext row verifies by equality, while a
signup-created user's correct password is rejected. -/
theorem verify_endpoint_plaintext_compare_witness :
    verify_user_password { rows := [{ user_id := 7, user_email := "a@x.com",
                                      user_pwd := "secret1", first_name := "A",
                                      last_name := none, created_at := none }],
                           nextId := 8 } "a@x.com" "secret1"
      = .ok { user_id := 7, user_email := "a@x.com", first_name := "A",
              last_name := none, created_at := none }
    ∧ verify_user_password (signup { rows := [], nextId := 1 }
          "A" none "a@x.com" "secret1" "c2FsdA" 5).2 "a@x.com" "secret1"
      = .error (.http 401 "Invalid credentials") :=
  ⟨(verify_endpoint_plaintext_compare.1 _ "a@x.com" "secret1"
      { user_id := 7, user_email := "a@x.com", user_pwd := "secret1", first_name := "A",
        last_name := none, created_at := none } [] (by decide)).mpr rfl,
   verify_endpoint_plaintext_compare.2 { rows := [], nextId := 1 }
      "A" none "a@x.com" "secret1" "c2FsdA" 5 (by decide)⟩

/-- C10: upsert on an email that already has a row returns the existing row's
public fields and performs no store write; the request's first name, last name
and password are all ignored. -/
theorem upsert_existing_returns_unchanged (s : Store) (email fn : String)
    (ln : Option String) (pwd : String) (now : Int) (row : UserRow) (rest : List UserRow)
    (hfind : findByEmail s email = row :: rest) :
    upsert_user s email fn ln pwd now = (.ok (publicOfRow row), s) := by
  simp [upsert_user, hfind]

/-- Witness for C10: an upsert carrying new names and a new password returns the
old row and the unchanged store. -/
theorem upsert_existing_returns_unchanged_witness :
    upsert_user { rows := [{ user_id := 3, user_email := "a@x.com", user_pwd := "old-pw",
                             first_name := "Old", last_name := none, created_at := some 1 }],
                  nextId := 4 } "a@x.com" "New" (some "Name") "new-pw" 9
      = (.ok { user_id := 3, user_email := "a@x.com", first_name := "Old",
               last_name := none, created_at := some 1 },
         { rows := [{ user_id := 3, user_email := "a@x.com", user_pwd := "old-pw",
                      first_name := "Old", last_name := none, created_at := some 1 }],
           nextId := 4 }) :=
  upsert_existing_returns_unchanged _ "a@x.com" "New" (some "Name") "new-pw" 9
    { user_id := 3, user_email := "a@x.com", user_pwd := "old-pw",
      first_name := "Old", last_name := none, created_at := some 1 } [] (by decide)

end LunaAI
